import Mathlib

/-!
# go-etcd-clientbuilder: endpoint discovery and default client construction

A shallow embedding of `dns_srv.go` (package `clientbuilder`) and
`autoconf/autoconf.go` (package `autoconf`).

Go strings are modelled by Lean strings (the valid UTF-8 ones), Go `error`
values by `GoError`, and a nil-able pointer by `Option`.  Every function of
the repository returns, next to its Go results, the list of calls it made
to its external collaborators (DNS, file system, crypto and etcd
libraries), in program order.  The collaborators are the fields of `World`;
`net.LookupSRV` is modelled on top of the DNS answer the world gives, with the
check of the target names that it makes.
-/

namespace Clientbuilder

/-! ## Standard-library functions used by `FillConfigFromDNS` -/

/-- UTF-8 encoding of one character, as byte values. -/
def utf8Bytes (c : Char) : List Nat :=
  let v := c.toNat
  if v < 0x80 then [v]
  else if v < 0x800 then [0xC0 + v / 64, 0x80 + v % 64]
  else if v < 0x10000 then [0xE0 + v / 4096, 0x80 + v / 64 % 64, 0x80 + v % 64]
  else [0xF0 + v / 262144, 0x80 + v / 4096 % 64, 0x80 + v / 64 % 64, 0x80 + v % 64]

/-- The bytes of a Go string. -/
def goBytes (s : String) : List Nat :=
  s.data.flatMap utf8Bytes

/-- Go `strconv.FormatUint(i, base)` for `2 ≤ base ≤ 16` (used with base 10):
the digits of `i`, most significant first, `"0"` for zero. -/
def FormatUint (i : Nat) (base : Nat) : String :=
  (Nat.toDigits base i).asString

/-- Go `net.JoinHostPort`: `host:port`, or `[host]:port` when the host
contains a colon. -/
def JoinHostPort (host port : String) : String :=
  if host.data.contains ':' then "[" ++ host ++ "]:" ++ port
  else host ++ ":" ++ port

/-- Go `net/url.shouldEscape(c, encodeHost)` on a byte: ASCII letters and
digits, the sub-delimiters of a host (exclamation mark, dollar, ampersand,
apostrophe, parentheses, asterisk, plus, comma, semicolon, equals), the colon,
square and angle brackets, the double quote, and the marks hyphen, underscore,
dot and tilde are kept; every other byte is escaped. -/
def shouldEscapeHost (c : Nat) : Bool :=
  if ('a'.toNat ≤ c ∧ c ≤ 'z'.toNat) ∨ ('A'.toNat ≤ c ∧ c ≤ 'Z'.toNat)
      ∨ ('0'.toNat ≤ c ∧ c ≤ '9'.toNat) then false
  else if c ∈ [33, 36, 38, 39, 40, 41, 42, 43, 44, 59, 61, 58, 91, 93, 60, 62, 34] then false
  else if c ∈ [45, 95, 46, 126] then false
  else true

/-- The table `upperhex` of `net/url`. -/
def upperhex : List Char :=
  ['0', '1', '2', '3', '4', '5', '6', '7', '8', '9', 'A', 'B', 'C', 'D', 'E', 'F']

/-- Go `net/url.escape(s, encodeHost)`: the string itself when no byte has to
be escaped, otherwise every such byte `c` becomes `%` followed by the two
upper-case hexadecimal digits of `c`. -/
def escapeHost (s : String) : String :=
  let hexCount := ((goBytes s).filter shouldEscapeHost).length
  if hexCount = 0 then s
  else String.mk ((goBytes s).flatMap fun c =>
    if shouldEscapeHost c then ['%', upperhex.getD (c / 16) '0', upperhex.getD (c % 16) '0']
    else [Char.ofNat c])

/-- A string is host-safe when `escape(s, encodeHost)` finds no byte to
escape in it. -/
def hostSafe (s : String) : Bool :=
  (goBytes s).all fun c => !shouldEscapeHost c

/-- The loop of Go `net.isDomainName` over the bytes still to read: `last` is
the byte read before, `nonNumeric` whether a letter, underscore or hyphen has
been seen, `partlen` the length of the current label. -/
def isDomainNameLoop : List Nat → Nat → Bool → Nat → Bool
  | [], last, nonNumeric, partlen =>
    if last = '-'.toNat ∨ partlen > 63 then false else nonNumeric
  | c :: rest, last, nonNumeric, partlen =>
    if ('a'.toNat ≤ c ∧ c ≤ 'z'.toNat) ∨ ('A'.toNat ≤ c ∧ c ≤ 'Z'.toNat)
        ∨ c = '_'.toNat then
      isDomainNameLoop rest c true (partlen + 1)
    else if '0'.toNat ≤ c ∧ c ≤ '9'.toNat then
      isDomainNameLoop rest c nonNumeric (partlen + 1)
    else if c = '-'.toNat then
      if last = '.'.toNat then false
      else isDomainNameLoop rest c true (partlen + 1)
    else if c = '.'.toNat then
      if last = '.'.toNat ∨ last = '-'.toNat then false
      else if partlen > 63 ∨ partlen = 0 then false
      else isDomainNameLoop rest c nonNumeric 0
    else false

/-- Go `net.isDomainName`: the root name `.`, or at most 254 bytes (253
without a final dot) of letters, digits, underscores, hyphens and dots,
forming labels of 1 to 63 bytes that do not start or end with a hyphen,
with at least one letter, underscore or hyphen. -/
def isDomainName (s : String) : Bool :=
  if s = "." then true
  else
    let l := (goBytes s).length
    if l = 0 ∨ l > 254 ∨ (l = 254 ∧ (goBytes s).getLast? ≠ some '.'.toNat) then false
    else isDomainNameLoop (goBytes s) '.'.toNat false 0

/-- The text of a DNS name given by its labels, as the resolver renders it
(Go `dnsmessage.Name.String`): every label followed by a dot, the root name
being a single dot. -/
def absoluteName (labels : List String) : String :=
  if labels = [] then "." else String.join (labels.map fun label => label ++ ".")

/-- The fields of Go `url.URL` that `FillConfigFromDNS` sets; every other
field (`Opaque`, `User`, `Path`, `RawQuery`, `Fragment`, ...) keeps its zero
value there. -/
structure URL where
  Scheme : String
  Host : String
deriving DecidableEq, Repr

/-- Go `(*url.URL).String` for a URL whose fields other than `Scheme` and
`Host` are zero: `scheme:` if the scheme is set, then `//` and the escaped
host if the host is set. -/
def URL.String (u : URL) : String :=
  let buf := if u.Scheme ≠ "" then u.Scheme ++ ":" else ""
  if u.Scheme ≠ "" ∨ u.Host ≠ "" then
    let buf := if u.Host ≠ "" then buf ++ "//" else buf
    if u.Host ≠ "" then buf ++ escapeHost u.Host else buf
  else buf

/-! ## Data model -/

/-- A Go `error` value; `nil` is `none : Option GoError`. -/
structure GoError where
  msg : String
deriving DecidableEq, Repr

/-- Go `errors.New`. -/
def errorsNew (text : String) : GoError :=
  ⟨text⟩

/-- Go `net.SRV`; the numeric fields are `uint16`. -/
structure SRV where
  Target : String
  Port : Fin 65536
  Priority : Fin 65536
  Weight : Fin 65536
deriving DecidableEq, Repr

/-- An SRV resource record of a DNS answer, its target given by its labels:
`etcd1.example.com` is `["etcd1", "example", "com"]`. -/
structure SRVRecord where
  target : List String
  port : Fin 65536
  priority : Fin 65536
  weight : Fin 65536
deriving DecidableEq, Repr

/-- Go `x509.Certificate`, identified by its DER encoding. -/
structure Certificate where
  Raw : List Nat
deriving DecidableEq, Repr

/-- Go `x509.CertPool`. -/
structure CertPool where
  certs : List Certificate
deriving DecidableEq, Repr

/-- Go `(*x509.CertPool).AddCert`: a certificate already in the pool is not
added a second time. -/
def CertPool.AddCert (s : CertPool) (cert : Certificate) : CertPool :=
  if cert ∈ s.certs then s else ⟨s.certs ++ [cert]⟩

/-- Go `pem.Block`; only `Bytes` is read by this program. -/
structure PemBlock where
  Bytes : List Nat
deriving DecidableEq, Repr

/-- Go `tls.Certificate`: a certificate chain and its private key. -/
structure TLSCertificate where
  Certificate : List (List Nat)
  PrivateKey : List Nat
deriving DecidableEq, Repr

/-- The fields of Go `tls.Config` this program sets; `RootCAs` is a pointer. -/
structure TLSConfig where
  RootCAs : Option CertPool
  Certificates : List TLSCertificate
deriving DecidableEq, Repr

/-- The fields of `etcd.Config` this program sets; `TLS` is a pointer. -/
structure Config where
  Endpoints : List String
  Username : String
  Password : String
  TLS : Option TLSConfig
deriving DecidableEq, Repr

/-- An `etcd.Client` instance, as returned by `etcd.New`. -/
structure Client where
  handle : Nat
deriving DecidableEq, Repr

/-- The Go result pair `(*etcd.Client, error)`. -/
abbrev ClientResult := Option Client × Option GoError

/-- The external collaborators: what each library call answers. -/
structure World where
  /-- Go `x509.SystemCertPool()`. -/
  SystemCertPool : Except GoError CertPool
  /-- Go `ioutil.ReadFile(filename)`. -/
  ReadFile : String → Except GoError (List Nat)
  /-- Go `pem.Decode(data)`: the first block found, if any, and the rest of the input. -/
  pemDecode : List Nat → Option PemBlock × List Nat
  /-- Go `x509.ParseCertificate(der)`. -/
  ParseCertificate : List Nat → Except GoError Certificate
  /-- Go `tls.LoadX509KeyPair(certFile, keyFile)`. -/
  LoadX509KeyPair : String → String → Except GoError TLSCertificate
  /-- The DNS answer to the SRV query for `_service._proto.name`: its SRV
  records in the order in which the resolver hands them on, or its error. -/
  resolveSRV : String → String → String → Except GoError (List SRVRecord)
  /-- Go `etcd.New(config)`. -/
  etcdNew : Config → ClientResult

/-- One call to an external collaborator. -/
inductive Call where
  | SystemCertPool
  | ReadFile (filename : String)
  | pemDecode (data : List Nat)
  | ParseCertificate (der : List Nat)
  | LoadX509KeyPair (certFile keyFile : String)
  | LookupSRV (service proto name : String)
  | etcdNew (config : Config)
deriving DecidableEq, Repr

/-- The flags of package `autoconf`, after `flag.Parse`; a string flag is set
when it is non-empty (`len(*p) > 0`). -/
structure Flags where
  endpoint : String
  domain : String
  username : String
  password : String
  serverCAPath : String
  clientCertFile : String
  clientKeyFile : String
  useTLS : Bool
deriving DecidableEq, Repr

/-! ## `net.LookupSRV` -/

/-- Go `(*net.Resolver).lookupSRV`: the records of the DNS answer as `net.SRV`
values, every target an absolute name (with its final dot); an answer
without SRV record is the error `no such host`. -/
def lookupSRV (w : World) (service proto name : String) : Except GoError (List SRV) :=
  match w.resolveSRV service proto name with
  | .error err => .error err
  | .ok rrs =>
    if rrs = [] then .error ⟨"no such host"⟩
    else .ok (rrs.map fun rr =>
      { Target := absoluteName rr.target, Port := rr.port, Priority := rr.priority,
        Weight := rr.weight })

/-- Go `net.LookupSRV(service, proto, name)`, without the canonical name: the
records whose target is not a domain name are dropped, and when one was
dropped the call returns an error (next to the records that are left, which
the callers in this repository do not read). -/
def LookupSRV (w : World) (service proto name : String) : Except GoError (List SRV) :=
  match lookupSRV w service proto name with
  | .error err => .error err
  | .ok addrs =>
    let filteredAddrs := addrs.filter fun addr => isDomainName addr.Target
    if addrs.length ≠ filteredAddrs.length then
      .error ⟨"DNS response contained records which contain invalid names"⟩
    else .ok filteredAddrs

/-! ## `dns_srv.go` -/

/-- The URL appended for one record by the loop body of `FillConfigFromDNS`
(lines 34-36), `scheme` being the value of `u.Scheme`. -/
def endpointURL (scheme : String) (srv : SRV) : String :=
  let port := FormatUint srv.Port.val 10
  URL.String { Scheme := scheme, Host := JoinHostPort srv.Target port }

/-- Function `FillConfigFromDNS(conf, srvtype, domain)`: the configuration after the
call and the returned error. -/
def FillConfigFromDNS (w : World) (conf : Config) (srvtype domain : String) :
    (Config × Option GoError) × List Call :=
  let scheme := if srvtype = "etcd-client-ssl" then "https" else "http"
  match LookupSRV w srvtype "tcp" domain with
  | .error err => ((conf, some err), [Call.LookupSRV srvtype "tcp" domain])
  | .ok srvs =>
    let conf := srvs.foldl
      (fun conf srv => { conf with Endpoints := conf.Endpoints ++ [endpointURL scheme srv] }) conf
    ((conf, none), [Call.LookupSRV srvtype "tcp" domain])

/-- Function `NewFromDNS(domain, user, pass)`: the returned pair. -/
def NewFromDNS (w : World) (domain user pass : String) : ClientResult × List Call :=
  let config : Config := { Endpoints := [], Username := user, Password := pass, TLS := none }
  match FillConfigFromDNS w config "etcd-client" domain with
  | ((_, some err), calls) => ((none, some err), calls)
  | ((config, none), calls) => (w.etcdNew config, calls ++ [Call.etcdNew config])

/-- Function `NewTLSFromDNS(tc, domain, user, pass)`: the returned pair. -/
def NewTLSFromDNS (w : World) (tc : Option TLSConfig) (domain user pass : String) :
    ClientResult × List Call :=
  let config : Config := { Endpoints := [], Username := user, Password := pass, TLS := tc }
  match FillConfigFromDNS w config "etcd-client-ssl" domain with
  | ((_, some err), calls) => ((none, some err), calls)
  | ((config, none), calls) => (w.etcdNew config, calls ++ [Call.etcdNew config])

/-! ## `autoconf/autoconf.go` -/

/-- Lines 56-99 of `buildDefaultEtcdClient`: the value of `tc` when line 101
is reached, or the error of the early return taken before. -/
def buildTLSConfig (w : World) (fl : Flags) : Except GoError TLSConfig × List Call :=
  match w.SystemCertPool with
  | .error err => (.error err, [Call.SystemCertPool])
  | .ok pool =>
    let afterCA : Except GoError CertPool × List Call :=
      if fl.serverCAPath.length > 0 then
        match w.ReadFile fl.serverCAPath with
        | .error err => (.error err, [Call.ReadFile fl.serverCAPath])
        | .ok certPEMBlock =>
          match (w.pemDecode certPEMBlock).1 with
          | none =>
            (.error (errorsNew ("Error decoding certificate " ++ fl.serverCAPath)),
              [Call.ReadFile fl.serverCAPath, Call.pemDecode certPEMBlock])
          | some certDERBlock =>
            match w.ParseCertificate certDERBlock.Bytes with
            | .error err =>
              (.error err, [Call.ReadFile fl.serverCAPath, Call.pemDecode certPEMBlock,
                Call.ParseCertificate certDERBlock.Bytes])
            | .ok cert =>
              (.ok (pool.AddCert cert), [Call.ReadFile fl.serverCAPath,
                Call.pemDecode certPEMBlock, Call.ParseCertificate certDERBlock.Bytes])
      else (.ok pool, [])
    match afterCA with
    | (.error err, calls) => (.error err, Call.SystemCertPool :: calls)
    | (.ok roots, calls) =>
      if fl.clientCertFile.length > 0 ∧ fl.clientKeyFile.length > 0 then
        match w.LoadX509KeyPair fl.clientCertFile fl.clientKeyFile with
        | .error err =>
          (.error err, Call.SystemCertPool :: calls ++
            [Call.LoadX509KeyPair fl.clientCertFile fl.clientKeyFile])
        | .ok cert =>
          (.ok { RootCAs := some roots, Certificates := [] ++ [cert] },
            Call.SystemCertPool :: calls ++
              [Call.LoadX509KeyPair fl.clientCertFile fl.clientKeyFile])
      else (.ok { RootCAs := some roots, Certificates := [] }, Call.SystemCertPool :: calls)

/-- Function `buildDefaultEtcdClient()`, reading the flags `fl`: the returned pair. -/
def buildDefaultEtcdClient (w : World) (fl : Flags) : ClientResult × List Call :=
  match buildTLSConfig w fl with
  | (.error err, calls) => ((none, some err), calls)
  | (.ok tc, calls) =>
    if fl.useTLS then
      let r := NewTLSFromDNS w (some tc) fl.domain fl.username fl.password
      (r.1, calls ++ r.2)
    else
      let r := NewFromDNS w fl.domain fl.username fl.password
      (r.1, calls ++ r.2)

/-- Go `sync.Once`. -/
structure Once where
  done : Bool
deriving DecidableEq, Repr

/-- A Go run-time panic. -/
inductive Panic where
  | nilPointerDereference
deriving DecidableEq, Repr

/-- The package-level variables `etcdClient`, `etcdOnce` and `etcdOnceError`
(lines 39-41); the first two are pointers. -/
structure Globals where
  etcdClient : Option Client
  etcdOnce : Option Once
  etcdOnceError : Option GoError
deriving DecidableEq, Repr

/-- The package-level variables when the program starts: the source gives
none of them an initial value, so each holds the zero value of its type. -/
def Globals.initial : Globals :=
  { etcdClient := none, etcdOnce := none, etcdOnceError := none }

/-- Go `(*sync.Once).Do(f)` called from one goroutine, `f` acting on a state
`σ`: reading `o.done` through a nil receiver panics; otherwise `f` runs if
`done` is not yet set, and `done` is set afterwards. -/
def Once.Do {σ : Type} (o : Option Once) (f : σ → σ × List Call) (s : σ) :
    Except Panic (Once × σ × List Call) :=
  match o with
  | none => .error Panic.nilPointerDereference
  | some o =>
    if o.done then .ok (o, s, [])
    else
      let r := f s
      .ok ({ done := true }, r.1, r.2)

/-- Function `DefaultEtcdClient()`: the returned pair, the package-level variables
after the call and the external calls made, or the panic that ends it. -/
def DefaultEtcdClient (w : World) (fl : Flags) (g : Globals) :
    Except Panic (ClientResult × Globals × List Call) :=
  match Once.Do g.etcdOnce (fun _ => buildDefaultEtcdClient w fl)
      (g.etcdClient, g.etcdOnceError) with
  | .error p => .error p
  | .ok (o, (client, err), calls) =>
    .ok ((client, err),
      { etcdClient := client, etcdOnce := some o, etcdOnceError := err }, calls)

/-- A caller that makes one call to `DefaultEtcdClient` after the other, the
i-th in the world `ws[i]`, and recovers from a panic before the next call:
what each call returned (or its panic) and the external calls it made. -/
def sequentialCalls (fl : Flags) : List World → Globals →
    List (Except Panic ClientResult × List Call)
  | [], _ => []
  | w :: ws, g =>
    match DefaultEtcdClient w fl g with
    | .error p => (.error p, []) :: sequentialCalls fl ws g
    | .ok (r, g', calls) => (.ok r, calls) :: sequentialCalls fl ws g'

/-! ## Concrete worlds and flag states -/

/-- A platform trust store with one root certificate. -/
def systemRoots : CertPool :=
  ⟨[⟨[48, 130, 1, 10]⟩]⟩

/-- A world with one SRV record, target `etcd1.example.com` and port 2379,
for both service tags under `etcd.example.com`, a loadable trust store and no
readable file. -/
def exampleWorld : World where
  SystemCertPool := .ok systemRoots
  ReadFile := fun _ => .error ⟨"open: no such file or directory"⟩
  pemDecode := fun data => (none, data)
  ParseCertificate := fun _ => .error ⟨"x509: malformed certificate"⟩
  LoadX509KeyPair := fun _ _ => .error ⟨"open: no such file or directory"⟩
  resolveSRV := fun service proto name =>
    if proto = "tcp" ∧ name = "etcd.example.com" ∧
        (service = "etcd-client-ssl" ∨ service = "etcd-client") then
      .ok [⟨["etcd1", "example", "com"], 2379, 0, 0⟩]
    else .error ⟨"no such host"⟩
  etcdNew := fun config =>
    if config.Endpoints = [] then (none, some ⟨"etcdclient: no available endpoints"⟩)
    else (some ⟨1⟩, none)

/-- A configuration with one endpoint already present. -/
def exampleConfig : Config :=
  { Endpoints := ["http://10.0.0.9:2379"], Username := "root", Password := "", TLS := none }

/-- The world `exampleWorld` with a DNS server that cannot be reached. -/
def noDNSWorld : World :=
  { exampleWorld with resolveSRV := fun _ _ _ => .error ⟨"i/o timeout"⟩ }

/-- The world `exampleWorld` with a zone that has SRV records for the plain
tag `etcd-client` only. -/
def plainOnlyWorld : World :=
  { exampleWorld with
    resolveSRV := fun service proto name =>
      if proto = "tcp" ∧ name = "etcd.example.com" ∧ service = "etcd-client" then
        .ok [⟨["etcd1", "example", "com"], 2379, 0, 0⟩]
      else .error ⟨"no such host"⟩ }

/-- The world `exampleWorld` with a zone that has SRV records for the TLS tag
`etcd-client-ssl` only. -/
def sslOnlyWorld : World :=
  { exampleWorld with
    resolveSRV := fun service proto name =>
      if proto = "tcp" ∧ name = "etcd.example.com" ∧ service = "etcd-client-ssl" then
        .ok [⟨["etcd1", "example", "com"], 2379, 0, 0⟩]
      else .error ⟨"no such host"⟩ }

/-- The world `exampleWorld` with a DNS answer of two records, the second with
a target label that holds a space. -/
def invalidTargetWorld : World :=
  { exampleWorld with
    resolveSRV := fun _ _ _ =>
      .ok [⟨["etcd1", "example", "com"], 2379, 0, 0⟩,
        ⟨["a b", "example", "com"], 1, 0, 0⟩] }

/-- The world `exampleWorld` with no platform trust store. -/
def noPoolWorld : World :=
  { exampleWorld with
    SystemCertPool := .error ⟨"crypto/x509: system root pool is not available"⟩ }

/-- Flags for TLS discovery under `etcd.example.com`, everything else unset. -/
def tlsFlags : Flags :=
  { endpoint := "", domain := "etcd.example.com", username := "", password := "",
    serverCAPath := "", clientCertFile := "", clientKeyFile := "", useTLS := true }

/-- Flags for plain discovery under `etcd.example.com`. -/
def plainFlags : Flags :=
  { tlsFlags with useTLS := false }

/-- Plain discovery flags with the explicit endpoint `10.0.0.1:2379` set. -/
def overrideFlags : Flags :=
  { plainFlags with endpoint := "10.0.0.1:2379" }

/-- TLS flags with only the client certificate path set. -/
def certOnlyFlags : Flags :=
  { tlsFlags with clientCertFile := "/etc/etcd/client.crt" }

/-- TLS flags with a root CA path. -/
def caFlags : Flags :=
  { tlsFlags with serverCAPath := "/etc/etcd/ca.pem" }

/-- Plain discovery flags with a root CA path and both client paths set. -/
def plainWithTLSMaterialFlags : Flags :=
  { plainFlags with
    serverCAPath := "/etc/etcd/ca.pem", clientCertFile := "/etc/etcd/client.crt",
    clientKeyFile := "/etc/etcd/client.key" }

/-- A world whose CA file holds two PEM blocks: decoding the file yields the
first block and the second as the rest, and every block parses. -/
def twoBlockWorld : World :=
  { exampleWorld with
    ReadFile := fun filename =>
      if filename = "/etc/etcd/ca.pem" then .ok [1, 2, 3, 4]
      else .error ⟨"open: no such file or directory"⟩
    pemDecode := fun data =>
      if data = [1, 2, 3, 4] then (some ⟨[1, 2]⟩, [3, 4])
      else if data = [3, 4] then (some ⟨[3, 4]⟩, [])
      else (none, data)
    ParseCertificate := fun der => .ok ⟨der⟩ }

/-- The world `twoBlockWorld` with a client key pair that loads. -/
def keyPairWorld : World :=
  { twoBlockWorld with
    LoadX509KeyPair := fun certFile keyFile =>
      if certFile = "/etc/etcd/client.crt" ∧ keyFile = "/etc/etcd/client.key" then
        .ok ⟨[[5, 6]], [7, 8]⟩
      else .error ⟨"open: no such file or directory"⟩ }

/-- A world without a platform trust store whose CA file is readable but
holds no PEM block. -/
def noPoolBadCAWorld : World :=
  { noPoolWorld with
    ReadFile := fun filename =>
      if filename = "/etc/etcd/ca.pem" then .ok [1, 2, 3, 4]
      else .error ⟨"open: no such file or directory"⟩ }

end Clientbuilder

namespace Clientbuilder

/-! ## Lemmas on the string functions -/

theorem goBytes_append (a b : String) : goBytes (a ++ b) = goBytes a ++ goBytes b := by
  simp [goBytes, String.data_append, List.flatMap_append]

theorem hostSafe_append (a b : String) : hostSafe (a ++ b) = (hostSafe a && hostSafe b) := by
  simp [hostSafe, goBytes_append, List.all_append]

theorem escapeHost_of_hostSafe (s : String) (h : hostSafe s = true) : escapeHost s = s := by
  have hnil : (goBytes s).filter shouldEscapeHost = [] := by
    rw [List.filter_eq_nil_iff]
    intro a ha
    have := (List.all_eq_true.mp h) a ha
    simpa using this
  simp [escapeHost, hnil]

theorem digitChar_safe (k : Nat) (hk : k < 10) :
    (utf8Bytes (Nat.digitChar k)).all (fun c => !shouldEscapeHost c) = true := by
  revert k; decide

theorem toDigitsCore_safe (fuel : Nat) : ∀ (n : Nat) (ds : List Char),
    (∀ c ∈ ds, (utf8Bytes c).all (fun c => !shouldEscapeHost c) = true) →
    ∀ c ∈ Nat.toDigitsCore 10 fuel n ds,
      (utf8Bytes c).all (fun c => !shouldEscapeHost c) = true := by
  induction fuel with
  | zero => intro n ds hds c hc; exact hds c (by simpa [Nat.toDigitsCore] using hc)
  | succ f ih =>
    intro n ds hds c hc
    have hcons : ∀ c ∈ Nat.digitChar (n % 10) :: ds,
        (utf8Bytes c).all (fun c => !shouldEscapeHost c) = true := by
      intro c hc
      rcases List.mem_cons.mp hc with rfl | hc
      · exact digitChar_safe _ (Nat.mod_lt _ (by decide))
      · exact hds c hc
    simp only [Nat.toDigitsCore] at hc
    split at hc
    · exact hcons c hc
    · exact ih _ _ hcons c hc

theorem hostSafe_FormatUint (n : Nat) : hostSafe (FormatUint n 10) = true := by
  simp only [hostSafe, FormatUint, goBytes, List.asString, List.all_flatMap, List.all_eq_true]
  intro c hc
  exact List.all_eq_true.mp (toDigitsCore_safe _ _ _ (by simp) c hc)

theorem hostSafe_JoinHostPort (host port : String) (hh : hostSafe host = true)
    (hp : hostSafe port = true) : hostSafe (JoinHostPort host port) = true := by
  unfold JoinHostPort
  split
  · simp only [hostSafe_append, hh, hp, Bool.and_true, Bool.true_and, Bool.and_eq_true]
    decide
  · simp only [hostSafe_append, hh, hp, Bool.and_true, Bool.true_and]
    decide

theorem JoinHostPort_ne_empty (host port : String) : JoinHostPort host port ≠ "" := by
  intro h
  have := congrArg String.data h
  unfold JoinHostPort at this
  split at this <;> simp [String.data_append] at this

theorem URL_String_eq (scheme host : String) (hs : scheme ≠ "") (hh : host ≠ "") :
    URL.String { Scheme := scheme, Host := host } = scheme ++ "://" ++ escapeHost host := by
  simp only [URL.String, hs, hh, ne_eq, not_false_eq_true, true_or, if_true]
  rw [String.append_assoc scheme ":" "//"]
  rfl

theorem domainByte_safe (c : Nat)
    (h : (97 ≤ c ∧ c ≤ 122) ∨ (65 ≤ c ∧ c ≤ 90) ∨ c = 95 ∨ (48 ≤ c ∧ c ≤ 57) ∨ c = 45 ∨
      c = 46) :
    shouldEscapeHost c = false := by
  have hc : c < 128 := by omega
  interval_cases c <;> first | rfl | (exfalso; omega)

theorem isDomainNameLoop_safe : ∀ (bs : List Nat) (last : Nat) (nonNumeric : Bool)
    (partlen : Nat), isDomainNameLoop bs last nonNumeric partlen = true →
      bs.all (fun c => !shouldEscapeHost c) = true := by
  intro bs
  induction bs with
  | nil => intro _ _ _ _; rfl
  | cons c rest ih =>
    intro last nonNumeric partlen h
    simp only [isDomainNameLoop, Char.reduceToNat] at h
    simp only [List.all_cons, Bool.and_eq_true, Bool.not_eq_true']
    split_ifs at h with h1 h2 h3 h4 h5 h6 h7
    · exact ⟨domainByte_safe c (by omega), ih _ _ _ h⟩
    · exact ⟨domainByte_safe c (by omega), ih _ _ _ h⟩
    · exact ⟨domainByte_safe c (by omega), ih _ _ _ h⟩
    · exact ⟨domainByte_safe c (by omega), ih _ _ _ h⟩

theorem isDomainName_hostSafe (s : String) (h : isDomainName s = true) : hostSafe s = true := by
  unfold isDomainName at h
  by_cases h1 : s = "."
  · subst h1; decide
  · simp only [h1, if_false] at h
    split_ifs at h
    exact isDomainNameLoop_safe _ _ _ _ h

theorem LookupSRV_targets (w : World) (service proto name : String) (srvs : List SRV)
    (h : LookupSRV w service proto name = .ok srvs) :
    ∀ srv ∈ srvs, isDomainName srv.Target = true := by
  intro srv hsrv
  unfold LookupSRV at h
  cases hl : lookupSRV w service proto name with
  | error e => simp [hl] at h
  | ok addrs =>
    simp only [hl] at h
    split_ifs at h
    simp only [Except.ok.injEq] at h
    subst h
    exact (List.mem_filter.mp hsrv).2

theorem endpointURL_eq (scheme : String) (srv : SRV) (hs : scheme ≠ "") :
    endpointURL scheme srv =
      scheme ++ "://" ++ escapeHost (JoinHostPort srv.Target (FormatUint srv.Port.val 10)) :=
  URL_String_eq scheme _ hs (JoinHostPort_ne_empty _ _)

theorem scheme_ne_empty (srvtype : String) :
    (if srvtype = "etcd-client-ssl" then "https" else "http") ≠ "" := by
  split <;> decide

theorem foldl_append_endpoints (f : SRV → String) (srvs : List SRV) : ∀ conf : Config,
    srvs.foldl (fun conf srv => { conf with Endpoints := conf.Endpoints ++ [f srv] }) conf
      = { conf with Endpoints := conf.Endpoints ++ srvs.map f } := by
  induction srvs with
  | nil => intro conf; simp
  | cons a t ih => intro conf; simp [List.foldl, ih, List.append_assoc]

theorem FillConfigFromDNS_ok (w : World) (conf : Config) (srvtype domain : String)
    (srvs : List SRV) (hlookup : LookupSRV w srvtype "tcp" domain = .ok srvs) :
    FillConfigFromDNS w conf srvtype domain =
      (({ conf with Endpoints := conf.Endpoints ++
            srvs.map (endpointURL (if srvtype = "etcd-client-ssl" then "https" else "http")) },
          none), [Call.LookupSRV srvtype "tcp" domain]) := by
  simp only [FillConfigFromDNS, hlookup, foldl_append_endpoints]

theorem FillConfigFromDNS_error (w : World) (conf : Config) (srvtype domain : String)
    (e : GoError) (hlookup : LookupSRV w srvtype "tcp" domain = .error e) :
    FillConfigFromDNS w conf srvtype domain =
      ((conf, some e), [Call.LookupSRV srvtype "tcp" domain]) := by
  simp only [FillConfigFromDNS, hlookup]

/-! ## Endpoint resolver -/

theorem LookupSRV_exampleWorld (service : String)
    (h : service = "etcd-client-ssl" ∨ service = "etcd-client") :
    LookupSRV exampleWorld service "tcp" "etcd.example.com" =
      .ok [⟨"etcd1.example.com.", 2379, 0, 0⟩] := by
  rcases h with rfl | rfl <;> rfl

theorem LookupSRV_invalidTargetWorld :
    LookupSRV invalidTargetWorld "etcd-client" "tcp" "etcd.example.com" =
        .error ⟨"DNS response contained records which contain invalid names"⟩
      ∧ FillConfigFromDNS invalidTargetWorld exampleConfig "etcd-client" "etcd.example.com" =
        ((exampleConfig, some ⟨"DNS response contained records which contain invalid names"⟩),
          [Call.LookupSRV "etcd-client" "tcp" "etcd.example.com"]) :=
  ⟨rfl, by decide⟩

/-- C1: when the SRV lookup succeeds with the records `srvs`,
`FillConfigFromDNS` returns no error and `conf.Endpoints` becomes the previous
list followed, in lookup order, by one URL per record: the scheme (`https`
for the tag `etcd-client-ssl`, `http` for every other tag), `://`, and
`JoinHostPort(target, decimal port)`; nothing else of `conf` changes and the
lookup is the only external call. -/
theorem FillConfigFromDNS_appends_urls (w : World) (conf : Config)
    (srvtype domain : String) (srvs : List SRV)
    (hlookup : LookupSRV w srvtype "tcp" domain = .ok srvs) :
    FillConfigFromDNS w conf srvtype domain =
      (({ conf with Endpoints := conf.Endpoints ++ srvs.map fun srv =>
            (if srvtype = "etcd-client-ssl" then "https" else "http") ++ "://" ++
              JoinHostPort srv.Target (FormatUint srv.Port.val 10) },
          none), [Call.LookupSRV srvtype "tcp" domain]) := by
  rw [FillConfigFromDNS_ok w conf srvtype domain srvs hlookup]
  have hmap : srvs.map (endpointURL (if srvtype = "etcd-client-ssl" then "https" else "http"))
      = srvs.map fun srv =>
          (if srvtype = "etcd-client-ssl" then "https" else "http") ++ "://" ++
            JoinHostPort srv.Target (FormatUint srv.Port.val 10) := by
    refine List.map_congr_left fun srv hsrv => ?_
    rw [endpointURL_eq _ srv (scheme_ne_empty srvtype),
      escapeHost_of_hostSafe _ (hostSafe_JoinHostPort _ _
        (isDomainName_hostSafe _ (LookupSRV_targets w _ _ _ srvs hlookup srv hsrv))
        (hostSafe_FormatUint _))]
  rw [hmap]

/-- C1 (witness): the record with target `etcd1.example.com` and port 2379
under the tag `etcd-client-ssl`, appended to a configuration with one
endpoint. -/
theorem FillConfigFromDNS_appends_urls_witness :
    LookupSRV exampleWorld "etcd-client-ssl" "tcp" "etcd.example.com"
        = .ok [⟨"etcd1.example.com.", 2379, 0, 0⟩]
      ∧ FillConfigFromDNS exampleWorld exampleConfig "etcd-client-ssl" "etcd.example.com" =
        (({ exampleConfig with Endpoints :=
              ["http://10.0.0.9:2379", "https://etcd1.example.com.:2379"] }, none),
          [Call.LookupSRV "etcd-client-ssl" "tcp" "etcd.example.com"]) :=
  ⟨rfl, (FillConfigFromDNS_appends_urls exampleWorld exampleConfig "etcd-client-ssl"
    "etcd.example.com" [⟨"etcd1.example.com.", 2379, 0, 0⟩] rfl).trans (by decide)⟩

/-- C6: when the SRV lookup of its tag fails with an error `e`,
`FillConfigFromDNS` returns `e` and leaves the configuration as it was;
when the lookup of `etcd-client` fails, `NewFromDNS` returns `(nil, e)`, and
when the lookup of `etcd-client-ssl` fails, `NewTLSFromDNS` returns `(nil, e)`,
each with that one lookup as its only external call: no client constructor,
and no lookup of the other tag, whatever that tag would resolve to. -/
theorem lookup_failure_propagates (w : World) (conf : Config) (srvtype domain : String)
    (tc : Option TLSConfig) (user pass : String) :
    (∀ e, LookupSRV w srvtype "tcp" domain = .error e →
        FillConfigFromDNS w conf srvtype domain =
          ((conf, some e), [Call.LookupSRV srvtype "tcp" domain]))
      ∧ (∀ e, LookupSRV w "etcd-client" "tcp" domain = .error e →
        NewFromDNS w domain user pass =
          ((none, some e), [Call.LookupSRV "etcd-client" "tcp" domain]))
      ∧ (∀ e, LookupSRV w "etcd-client-ssl" "tcp" domain = .error e →
        NewTLSFromDNS w tc domain user pass =
          ((none, some e), [Call.LookupSRV "etcd-client-ssl" "tcp" domain])) := by
  refine ⟨fun e h => FillConfigFromDNS_error w conf srvtype domain e h, fun e h => ?_,
    fun e h => ?_⟩
  · simp only [NewFromDNS, FillConfigFromDNS_error w _ _ domain e h]
  · simp only [NewTLSFromDNS, FillConfigFromDNS_error w _ _ domain e h]

/-- C6 (witness): in a zone with records for the plain tag only, the TLS
lookup fails and `NewTLSFromDNS` returns its error after that one lookup,
although `etcd-client` resolves; in a zone with records for the TLS tag only,
`NewFromDNS` returns the error of the plain lookup. -/
theorem lookup_failure_propagates_witness :
    (LookupSRV plainOnlyWorld "etcd-client-ssl" "tcp" "etcd.example.com"
        = .error ⟨"no such host"⟩
      ∧ LookupSRV plainOnlyWorld "etcd-client" "tcp" "etcd.example.com"
        = .ok [⟨"etcd1.example.com.", 2379, 0, 0⟩]
      ∧ LookupSRV sslOnlyWorld "etcd-client" "tcp" "etcd.example.com"
        = .error ⟨"no such host"⟩
      ∧ LookupSRV sslOnlyWorld "etcd-client-ssl" "tcp" "etcd.example.com"
        = .ok [⟨"etcd1.example.com.", 2379, 0, 0⟩])
      ∧ FillConfigFromDNS plainOnlyWorld exampleConfig "etcd-client-ssl" "etcd.example.com" =
          ((exampleConfig, some ⟨"no such host"⟩),
            [Call.LookupSRV "etcd-client-ssl" "tcp" "etcd.example.com"])
      ∧ NewTLSFromDNS plainOnlyWorld (some ⟨some systemRoots, []⟩) "etcd.example.com" "root"
            "secret" =
          ((none, some ⟨"no such host"⟩),
            [Call.LookupSRV "etcd-client-ssl" "tcp" "etcd.example.com"])
      ∧ NewFromDNS sslOnlyWorld "etcd.example.com" "root" "secret" =
          ((none, some ⟨"no such host"⟩),
            [Call.LookupSRV "etcd-client" "tcp" "etcd.example.com"]) :=
  ⟨⟨rfl, rfl, rfl, rfl⟩,
    (lookup_failure_propagates plainOnlyWorld exampleConfig "etcd-client-ssl"
      "etcd.example.com" (some ⟨some systemRoots, []⟩) "root" "secret").1 _ rfl,
    (lookup_failure_propagates plainOnlyWorld exampleConfig "etcd-client-ssl"
      "etcd.example.com" (some ⟨some systemRoots, []⟩) "root" "secret").2.2 _ rfl,
    (lookup_failure_propagates sslOnlyWorld exampleConfig "etcd-client"
      "etcd.example.com" (some ⟨some systemRoots, []⟩) "root" "secret").2.1 _ rfl⟩

/-! ## Configuration builder -/

theorem NewFromDNS_ok (w : World) (domain user pass : String) (srvs : List SRV)
    (hlookup : LookupSRV w "etcd-client" "tcp" domain = .ok srvs) :
    NewFromDNS w domain user pass =
      (w.etcdNew { Endpoints := srvs.map (endpointURL "http"), Username := user,
                   Password := pass, TLS := none },
        [Call.LookupSRV "etcd-client" "tcp" domain,
          Call.etcdNew { Endpoints := srvs.map (endpointURL "http"), Username := user,
                         Password := pass, TLS := none }]) := by
  simp [NewFromDNS, FillConfigFromDNS_ok w _ _ domain srvs hlookup]

theorem NewTLSFromDNS_ok (w : World) (tc : Option TLSConfig) (domain user pass : String)
    (srvs : List SRV) (hlookup : LookupSRV w "etcd-client-ssl" "tcp" domain = .ok srvs) :
    NewTLSFromDNS w tc domain user pass =
      (w.etcdNew { Endpoints := srvs.map (endpointURL "https"), Username := user,
                   Password := pass, TLS := tc },
        [Call.LookupSRV "etcd-client-ssl" "tcp" domain,
          Call.etcdNew { Endpoints := srvs.map (endpointURL "https"), Username := user,
                         Password := pass, TLS := tc }]) := by
  simp [NewTLSFromDNS, FillConfigFromDNS_ok w _ _ domain srvs hlookup]

theorem NewFromDNS_error (w : World) (domain user pass : String) (e : GoError)
    (hlookup : LookupSRV w "etcd-client" "tcp" domain = .error e) :
    NewFromDNS w domain user pass =
      ((none, some e), [Call.LookupSRV "etcd-client" "tcp" domain]) := by
  simp only [NewFromDNS, FillConfigFromDNS_error w _ _ domain e hlookup]

/-- The TLS steps succeed with given roots and client certificates. -/
theorem buildTLSConfig_ok (w : World) (fl : Flags) (pool roots : CertPool)
    (certs : List TLSCertificate)
    (hpool : w.SystemCertPool = .ok pool)
    (hca : (fl.serverCAPath.length = 0 ∧ roots = pool) ∨
      (fl.serverCAPath.length > 0 ∧ ∃ data block cert,
        w.ReadFile fl.serverCAPath = .ok data ∧ (w.pemDecode data).1 = some block ∧
        w.ParseCertificate block.Bytes = .ok cert ∧ roots = pool.AddCert cert))
    (hkey : (¬(fl.clientCertFile.length > 0 ∧ fl.clientKeyFile.length > 0) ∧ certs = []) ∨
      (fl.clientCertFile.length > 0 ∧ fl.clientKeyFile.length > 0 ∧ ∃ cert,
        w.LoadX509KeyPair fl.clientCertFile fl.clientKeyFile = .ok cert ∧ certs = [cert])) :
    (buildTLSConfig w fl).1 = .ok { RootCAs := some roots, Certificates := certs } := by
  rcases hca with ⟨h0, rfl⟩ | ⟨hpos, data, block, cert, hread, hdec, hparse, rfl⟩
  · rcases hkey with ⟨hno, rfl⟩ | ⟨hc, hk, cert, hload, rfl⟩
    · simp [buildTLSConfig, hpool, h0, hno]
    · simp [buildTLSConfig, hpool, h0, hc, hk, hload]
  · rcases hkey with ⟨hno, rfl⟩ | ⟨hc, hk, kp, hload, rfl⟩
    · simp [buildTLSConfig, hpool, hpos, hread, hdec, hparse, hno]
    · simp [buildTLSConfig, hpool, hpos, hread, hdec, hparse, hc, hk, hload]

/-- C5: with an empty explicit endpoint, when the trust store loads, the CA
file (if a path is set) reads, decodes and parses, the client key pair (if
both paths are set) loads and the SRV lookup for the tag of the chosen mode
succeeds, `buildDefaultEtcdClient` returns what the client constructor
returns for the configuration with the user and password flags, the looked-up
records as `https` URLs (tag `etcd-client-ssl`) under TLS and as `http` URLs
(tag `etcd-client`) otherwise, and a TLS configuration exactly under TLS; the
constructor call is the last external call. -/
theorem buildDefaultEtcdClient_success (w : World) (fl : Flags) (pool roots : CertPool)
    (certs : List TLSCertificate) (srvs : List SRV)
    (_hendpoint : fl.endpoint = "")
    (hpool : w.SystemCertPool = .ok pool)
    (hca : (fl.serverCAPath.length = 0 ∧ roots = pool) ∨
      (fl.serverCAPath.length > 0 ∧ ∃ data block cert,
        w.ReadFile fl.serverCAPath = .ok data ∧ (w.pemDecode data).1 = some block ∧
        w.ParseCertificate block.Bytes = .ok cert ∧ roots = pool.AddCert cert))
    (hkey : (¬(fl.clientCertFile.length > 0 ∧ fl.clientKeyFile.length > 0) ∧ certs = []) ∨
      (fl.clientCertFile.length > 0 ∧ fl.clientKeyFile.length > 0 ∧ ∃ cert,
        w.LoadX509KeyPair fl.clientCertFile fl.clientKeyFile = .ok cert ∧ certs = [cert]))
    (hsrv : LookupSRV w (if fl.useTLS then "etcd-client-ssl" else "etcd-client") "tcp"
      fl.domain = .ok srvs) :
    (buildDefaultEtcdClient w fl).1 =
        w.etcdNew { Endpoints := srvs.map (endpointURL (if fl.useTLS then "https" else "http")),
                    Username := fl.username, Password := fl.password,
                    TLS := if fl.useTLS then some { RootCAs := some roots, Certificates := certs }
                           else none }
      ∧ (buildDefaultEtcdClient w fl).2.getLast? = some (Call.etcdNew
          { Endpoints := srvs.map (endpointURL (if fl.useTLS then "https" else "http")),
            Username := fl.username, Password := fl.password,
            TLS := if fl.useTLS then some { RootCAs := some roots, Certificates := certs }
                   else none }) := by
  have htc := buildTLSConfig_ok w fl pool roots certs hpool hca hkey
  cases hb : buildTLSConfig w fl with
  | mk r calls =>
    rw [hb] at htc
    simp only at htc
    subst htc
    cases htls : fl.useTLS with
    | true =>
      rw [htls] at hsrv
      simp [buildDefaultEtcdClient, hb, htls, NewTLSFromDNS_ok w _ _ _ _ srvs hsrv]
    | false =>
      rw [htls] at hsrv
      simp [buildDefaultEtcdClient, hb, htls, NewFromDNS_ok w _ _ _ srvs hsrv]

/-- C5 (witness): domain `etcd.example.com`, TLS, no CA or client certificate
path, one record with target `etcd1.example.com` and port 2379, which the
lookup returns as `etcd1.example.com.`: the endpoints are
`["https://etcd1.example.com.:2379"]` and the TLS configuration holds the
system roots and no client certificate. -/
theorem buildDefaultEtcdClient_success_witness :
    (tlsFlags.endpoint = ""
      ∧ exampleWorld.SystemCertPool = .ok systemRoots
      ∧ tlsFlags.serverCAPath.length = 0
      ∧ ¬(tlsFlags.clientCertFile.length > 0 ∧ tlsFlags.clientKeyFile.length > 0)
      ∧ LookupSRV exampleWorld "etcd-client-ssl" "tcp" tlsFlags.domain
          = .ok [⟨"etcd1.example.com.", 2379, 0, 0⟩])
      ∧ (buildDefaultEtcdClient exampleWorld tlsFlags).1 =
          exampleWorld.etcdNew
            { Endpoints := ["https://etcd1.example.com.:2379"], Username := "", Password := "",
              TLS := some { RootCAs := some systemRoots, Certificates := [] } }
      ∧ (buildDefaultEtcdClient exampleWorld tlsFlags).2.getLast? = some (Call.etcdNew
          { Endpoints := ["https://etcd1.example.com.:2379"], Username := "", Password := "",
            TLS := some { RootCAs := some systemRoots, Certificates := [] } }) :=
  ⟨⟨rfl, rfl, by decide, by decide, rfl⟩,
    buildDefaultEtcdClient_success exampleWorld tlsFlags systemRoots systemRoots []
      [⟨"etcd1.example.com.", 2379, 0, 0⟩] rfl rfl (Or.inl ⟨by decide, rfl⟩)
      (Or.inl ⟨by decide, rfl⟩) rfl⟩

/-- C5 (counterexample): in the scenario of the claim (domain
`etcd.example.com`, TLS, no CA or client certificate path, one SRV record with
target `etcd1.example.com` and port 2379 for `etcd-client-ssl`) the lookup
returns the absolute target `etcd1.example.com.`, the builder hands the
endpoints `["https://etcd1.example.com.:2379"]` to the client constructor, and
the configuration with `["https://etcd1.example.com:2379"]` is never handed to
it. -/
theorem claimed_endpoint_lacks_final_dot :
    exampleWorld.resolveSRV "etcd-client-ssl" "tcp" tlsFlags.domain
        = .ok [⟨["etcd1", "example", "com"], 2379, 0, 0⟩]
      ∧ LookupSRV exampleWorld "etcd-client-ssl" "tcp" tlsFlags.domain
        = .ok [⟨"etcd1.example.com.", 2379, 0, 0⟩]
      ∧ buildDefaultEtcdClient exampleWorld tlsFlags =
          (exampleWorld.etcdNew
            { Endpoints := ["https://etcd1.example.com.:2379"], Username := "", Password := "",
              TLS := some { RootCAs := some systemRoots, Certificates := [] } },
            [Call.SystemCertPool, Call.LookupSRV "etcd-client-ssl" "tcp" "etcd.example.com",
              Call.etcdNew
                { Endpoints := ["https://etcd1.example.com.:2379"], Username := "",
                  Password := "",
                  TLS := some { RootCAs := some systemRoots, Certificates := [] } }])
      ∧ ["https://etcd1.example.com.:2379"] ≠ ["https://etcd1.example.com:2379"]
      ∧ Call.etcdNew
          { Endpoints := ["https://etcd1.example.com:2379"], Username := "", Password := "",
            TLS := some { RootCAs := some systemRoots, Certificates := [] } } ∉
          (buildDefaultEtcdClient exampleWorld tlsFlags).2 :=
  ⟨rfl, rfl, by decide, by decide, by decide⟩

theorem NewTLSFromDNS_world (w : World) (f : String → String → Except GoError TLSCertificate)
    (tc : Option TLSConfig) (domain user pass : String) :
    NewTLSFromDNS { w with LoadX509KeyPair := f } tc domain user pass =
      NewTLSFromDNS w tc domain user pass :=
  rfl

theorem NewFromDNS_world (w : World) (f : String → String → Except GoError TLSCertificate)
    (domain user pass : String) :
    NewFromDNS { w with LoadX509KeyPair := f } domain user pass =
      NewFromDNS w domain user pass :=
  rfl

theorem NewTLSFromDNS_calls (w : World) (tc : Option TLSConfig) (domain user pass : String) :
    ∀ c ∈ (NewTLSFromDNS w tc domain user pass).2,
      (∃ a b d, c = Call.LookupSRV a b d) ∨ ∃ config, c = Call.etcdNew config := by
  intro c hc
  cases hl : LookupSRV w "etcd-client-ssl" "tcp" domain with
  | error e =>
    simp [NewTLSFromDNS, FillConfigFromDNS_error w _ _ domain e hl] at hc
    exact Or.inl ⟨_, _, _, hc⟩
  | ok srvs =>
    simp [NewTLSFromDNS, FillConfigFromDNS_ok w _ _ domain srvs hl] at hc
    rcases hc with hc | hc
    · exact Or.inl ⟨_, _, _, hc⟩
    · exact Or.inr ⟨_, hc⟩

theorem NewFromDNS_calls (w : World) (domain user pass : String) :
    ∀ c ∈ (NewFromDNS w domain user pass).2,
      (∃ a b d, c = Call.LookupSRV a b d) ∨ ∃ config, c = Call.etcdNew config := by
  intro c hc
  cases hl : LookupSRV w "etcd-client" "tcp" domain with
  | error e =>
    simp [NewFromDNS, FillConfigFromDNS_error w _ _ domain e hl] at hc
    exact Or.inl ⟨_, _, _, hc⟩
  | ok srvs =>
    simp [NewFromDNS, FillConfigFromDNS_ok w _ _ domain srvs hl] at hc
    rcases hc with hc | hc
    · exact Or.inl ⟨_, _, _, hc⟩
    · exact Or.inr ⟨_, hc⟩

theorem buildTLSConfig_world (w : World) (fl : Flags)
    (f : String → String → Except GoError TLSCertificate)
    (hno : ¬(fl.clientCertFile.length > 0 ∧ fl.clientKeyFile.length > 0)) :
    buildTLSConfig { w with LoadX509KeyPair := f } fl = buildTLSConfig w fl := by
  simp only [buildTLSConfig, hno, if_false]

theorem buildTLSConfig_no_keypair_call (w : World) (fl : Flags)
    (hno : ¬(fl.clientCertFile.length > 0 ∧ fl.clientKeyFile.length > 0)) :
    ∀ a b, Call.LoadX509KeyPair a b ∉ (buildTLSConfig w fl).2 := by
  intro a b
  cases hpool : w.SystemCertPool with
  | error e => simp [buildTLSConfig, hpool]
  | ok pool =>
    by_cases hpath : fl.serverCAPath.length > 0
    · cases hread : w.ReadFile fl.serverCAPath with
      | error e => simp [buildTLSConfig, hpool, hpath, hread]
      | ok data =>
        cases hdec : (w.pemDecode data).1 with
        | none => simp [buildTLSConfig, hpool, hpath, hread, hdec]
        | some block =>
          cases hparse : w.ParseCertificate block.Bytes with
          | error e => simp [buildTLSConfig, hpool, hpath, hread, hdec, hparse]
          | ok cert => simp [buildTLSConfig, hpool, hpath, hread, hdec, hparse, hno]
    · simp [buildTLSConfig, hpool, hpath, hno]

theorem buildTLSConfig_certificates (w : World) (fl : Flags) (tc : TLSConfig)
    (calls : List Call) (h : buildTLSConfig w fl = (.ok tc, calls)) :
    (¬(fl.clientCertFile.length > 0 ∧ fl.clientKeyFile.length > 0) ∧ tc.Certificates = []) ∨
      (fl.clientCertFile.length > 0 ∧ fl.clientKeyFile.length > 0 ∧ ∃ cert,
        w.LoadX509KeyPair fl.clientCertFile fl.clientKeyFile = .ok cert ∧
        tc.Certificates = [cert]) := by
  have key : ∀ (roots : CertPool) (pre : List Call),
      (if fl.clientCertFile.length > 0 ∧ fl.clientKeyFile.length > 0 then
        match w.LoadX509KeyPair fl.clientCertFile fl.clientKeyFile with
        | .error err =>
          ((.error err : Except GoError TLSConfig), Call.SystemCertPool :: pre ++
            [Call.LoadX509KeyPair fl.clientCertFile fl.clientKeyFile])
        | .ok cert =>
          (.ok { RootCAs := some roots, Certificates := [] ++ [cert] },
            Call.SystemCertPool :: pre ++
              [Call.LoadX509KeyPair fl.clientCertFile fl.clientKeyFile])
      else (.ok { RootCAs := some roots, Certificates := [] }, Call.SystemCertPool :: pre))
        = (.ok tc, calls) →
      (¬(fl.clientCertFile.length > 0 ∧ fl.clientKeyFile.length > 0) ∧
          tc.Certificates = []) ∨
      (fl.clientCertFile.length > 0 ∧ fl.clientKeyFile.length > 0 ∧ ∃ cert,
        w.LoadX509KeyPair fl.clientCertFile fl.clientKeyFile = .ok cert ∧
        tc.Certificates = [cert]) := by
    intro roots pre hk
    by_cases hboth : fl.clientCertFile.length > 0 ∧ fl.clientKeyFile.length > 0
    · cases hload : w.LoadX509KeyPair fl.clientCertFile fl.clientKeyFile with
      | error e => simp [hboth, hload] at hk
      | ok cert =>
        simp only [hboth, hload, and_self, if_true, Prod.mk.injEq, Except.ok.injEq] at hk
        exact Or.inr ⟨hboth.1, hboth.2, cert, rfl, by rw [← hk.1]; rfl⟩
    · simp only [hboth, if_false, Prod.mk.injEq, Except.ok.injEq] at hk
      exact Or.inl ⟨hboth, by rw [← hk.1]⟩
  cases hpool : w.SystemCertPool with
  | error e => simp [buildTLSConfig, hpool] at h
  | ok pool =>
    by_cases hpath : fl.serverCAPath.length > 0
    · cases hread : w.ReadFile fl.serverCAPath with
      | error e => simp [buildTLSConfig, hpool, hpath, hread] at h
      | ok data =>
        cases hdec : (w.pemDecode data).1 with
        | none => simp [buildTLSConfig, hpool, hpath, hread, hdec] at h
        | some block =>
          cases hparse : w.ParseCertificate block.Bytes with
          | error e => simp [buildTLSConfig, hpool, hpath, hread, hdec, hparse] at h
          | ok cert =>
            simp only [buildTLSConfig, hpool, hpath, hread, hdec, hparse, if_true] at h
            exact key _ _ h
    · simp only [buildTLSConfig, hpool, hpath, if_false] at h
      exact key _ _ h

theorem buildDefaultEtcdClient_calls (w : World) (fl : Flags) :
    ∀ c ∈ (buildDefaultEtcdClient w fl).2, c ∈ (buildTLSConfig w fl).2 ∨
      (∃ a b d, c = Call.LookupSRV a b d) ∨ ∃ config, c = Call.etcdNew config := by
  intro c hc
  cases hb : buildTLSConfig w fl with
  | mk r calls =>
    cases r with
    | error e =>
      simp only [buildDefaultEtcdClient, hb] at hc
      exact Or.inl hc
    | ok tc =>
      cases htls : fl.useTLS with
      | true =>
        simp only [buildDefaultEtcdClient, hb, htls, if_true, List.mem_append] at hc
        rcases hc with hc | hc
        · exact Or.inl hc
        · exact Or.inr (NewTLSFromDNS_calls w _ _ _ _ c hc)
      | false =>
        simp only [buildDefaultEtcdClient, hb, htls, Bool.false_eq_true, if_false,
          List.mem_append] at hc
        rcases hc with hc | hc
        · exact Or.inl hc
        · exact Or.inr (NewFromDNS_calls w _ _ _ c hc)

/-- C8: when exactly one of the client-cert and client-key paths is non-empty,
`buildDefaultEtcdClient` makes no `LoadX509KeyPair` call, its outcome does not
depend on what loading a key pair would answer (so no key-pair error), and the
TLS configuration it assembles has no client certificate; for every world and
flag state an assembled TLS configuration has either no client certificate or
exactly the one loaded pair, both paths being non-empty. -/
theorem buildDefaultEtcdClient_partial_client_cert (w : World) (fl : Flags)
    (hone : (fl.clientCertFile.length > 0 ∧ fl.clientKeyFile.length = 0) ∨
      (fl.clientCertFile.length = 0 ∧ fl.clientKeyFile.length > 0)) :
    (∀ a b, Call.LoadX509KeyPair a b ∉ (buildDefaultEtcdClient w fl).2)
      ∧ (∀ f, buildDefaultEtcdClient { w with LoadX509KeyPair := f } fl =
          buildDefaultEtcdClient w fl)
      ∧ (∀ tc calls, buildTLSConfig w fl = (.ok tc, calls) → tc.Certificates = [])
      ∧ (∀ (w2 : World) (fl2 : Flags) tc calls, buildTLSConfig w2 fl2 = (.ok tc, calls) →
          tc.Certificates = [] ∨
            (fl2.clientCertFile.length > 0 ∧ fl2.clientKeyFile.length > 0 ∧ ∃ cert,
              w2.LoadX509KeyPair fl2.clientCertFile fl2.clientKeyFile = .ok cert ∧
              tc.Certificates = [cert])) := by
  have hno : ¬(fl.clientCertFile.length > 0 ∧ fl.clientKeyFile.length > 0) := by
    rcases hone with ⟨_, h⟩ | ⟨h, _⟩ <;> omega
  refine ⟨?_, ?_, ?_, ?_⟩
  · intro a b hmem
    rcases buildDefaultEtcdClient_calls w fl _ hmem with h | ⟨_, _, _, h⟩ | ⟨_, h⟩
    · exact buildTLSConfig_no_keypair_call w fl hno a b h
    · exact Call.noConfusion h
    · exact Call.noConfusion h
  · intro f
    simp only [buildDefaultEtcdClient, buildTLSConfig_world w fl f hno, NewTLSFromDNS_world,
      NewFromDNS_world]
  · intro tc calls h
    rcases buildTLSConfig_certificates w fl tc calls h with ⟨_, h0⟩ | ⟨hc, hk, _⟩
    · exact h0
    · exact absurd ⟨hc, hk⟩ hno
  · intro w2 fl2 tc calls h
    rcases buildTLSConfig_certificates w2 fl2 tc calls h with ⟨_, h0⟩ | h1
    · exact Or.inl h0
    · exact Or.inr h1

/-- C8 (witness): only the client certificate path is set. -/
theorem buildDefaultEtcdClient_partial_client_cert_witness :
    ((certOnlyFlags.clientCertFile.length > 0 ∧ certOnlyFlags.clientKeyFile.length = 0) ∨
      (certOnlyFlags.clientCertFile.length = 0 ∧ certOnlyFlags.clientKeyFile.length > 0))
      ∧ buildTLSConfig exampleWorld certOnlyFlags =
          (.ok { RootCAs := some systemRoots, Certificates := [] }, [Call.SystemCertPool])
      ∧ ({ RootCAs := some systemRoots, Certificates := [] } : TLSConfig).Certificates = []
      ∧ Call.LoadX509KeyPair "/etc/etcd/client.crt" "" ∉
          (buildDefaultEtcdClient exampleWorld certOnlyFlags).2 :=
  ⟨Or.inl (by decide), rfl,
    (buildDefaultEtcdClient_partial_client_cert exampleWorld certOnlyFlags
      (Or.inl (by decide))).2.2.1 _ _ rfl,
    (buildDefaultEtcdClient_partial_client_cert exampleWorld certOnlyFlags
      (Or.inl (by decide))).1 _ _⟩

/-- C9 (amended): with TLS requested, a non-empty root-ca path whose file is
readable, and a platform trust store that loads, `buildDefaultEtcdClient`
decodes the file once and does not look at the rest: without a block it
returns `(nil, "Error decoding certificate " + path)` after the calls
trust store, read, decode (no lookup, no client); when the block does not
parse it returns the parse error after those calls and the parse; otherwise
the root set of the assembled TLS configuration is the trust store with that
one certificate added, the only later TLS step being the key-pair load. -/
theorem buildDefaultEtcdClient_root_ca (w : World) (fl : Flags) (pool : CertPool)
    (data : List Nat)
    (_htls : fl.useTLS = true)
    (hpath : fl.serverCAPath.length > 0)
    (hpool : w.SystemCertPool = .ok pool)
    (hread : w.ReadFile fl.serverCAPath = .ok data) :
    match (w.pemDecode data).1 with
    | none =>
      buildDefaultEtcdClient w fl =
        ((none, some (errorsNew ("Error decoding certificate " ++ fl.serverCAPath))),
          [Call.SystemCertPool, Call.ReadFile fl.serverCAPath, Call.pemDecode data])
    | some block =>
      match w.ParseCertificate block.Bytes with
      | .error err =>
        buildDefaultEtcdClient w fl =
          ((none, some err),
            [Call.SystemCertPool, Call.ReadFile fl.serverCAPath, Call.pemDecode data,
              Call.ParseCertificate block.Bytes])
      | .ok cert =>
        buildTLSConfig w fl =
          if fl.clientCertFile.length > 0 ∧ fl.clientKeyFile.length > 0 then
            match w.LoadX509KeyPair fl.clientCertFile fl.clientKeyFile with
            | .error err =>
              (.error err,
                [Call.SystemCertPool, Call.ReadFile fl.serverCAPath, Call.pemDecode data,
                  Call.ParseCertificate block.Bytes,
                  Call.LoadX509KeyPair fl.clientCertFile fl.clientKeyFile])
            | .ok pair =>
              (.ok { RootCAs := some (pool.AddCert cert), Certificates := [pair] },
                [Call.SystemCertPool, Call.ReadFile fl.serverCAPath, Call.pemDecode data,
                  Call.ParseCertificate block.Bytes,
                  Call.LoadX509KeyPair fl.clientCertFile fl.clientKeyFile])
          else
            (.ok { RootCAs := some (pool.AddCert cert), Certificates := [] },
              [Call.SystemCertPool, Call.ReadFile fl.serverCAPath, Call.pemDecode data,
                Call.ParseCertificate block.Bytes]) := by
  cases hdec : (w.pemDecode data).1 with
  | none => simp [buildDefaultEtcdClient, buildTLSConfig, hpool, hpath, hread, hdec]
  | some block =>
    cases hparse : w.ParseCertificate block.Bytes with
    | error e => simp [buildDefaultEtcdClient, buildTLSConfig, hpool, hpath, hread, hdec, hparse]
    | ok cert =>
      by_cases hboth : fl.clientCertFile.length > 0 ∧ fl.clientKeyFile.length > 0
      · cases hload : w.LoadX509KeyPair fl.clientCertFile fl.clientKeyFile with
        | error e => simp [buildTLSConfig, hpool, hpath, hread, hdec, hparse, hboth, hload]
        | ok pair => simp [buildTLSConfig, hpool, hpath, hread, hdec, hparse, hboth, hload]
      · simp [buildTLSConfig, hpool, hpath, hread, hdec, hparse, hboth]

/-- C9 (witness): a CA file with two PEM blocks; only the first is parsed and
added to the roots. -/
theorem buildDefaultEtcdClient_root_ca_witness :
    (caFlags.useTLS = true ∧ caFlags.serverCAPath.length > 0
      ∧ twoBlockWorld.SystemCertPool = .ok systemRoots
      ∧ twoBlockWorld.ReadFile caFlags.serverCAPath = .ok [1, 2, 3, 4]
      ∧ twoBlockWorld.pemDecode [1, 2, 3, 4] = (some ⟨[1, 2]⟩, [3, 4])
      ∧ twoBlockWorld.pemDecode [3, 4] = (some ⟨[3, 4]⟩, []))
      ∧ buildTLSConfig twoBlockWorld caFlags =
          (.ok { RootCAs := some (systemRoots.AddCert ⟨[1, 2]⟩), Certificates := [] },
            [Call.SystemCertPool, Call.ReadFile "/etc/etcd/ca.pem", Call.pemDecode [1, 2, 3, 4],
              Call.ParseCertificate [1, 2]]) :=
  ⟨⟨rfl, by decide, rfl, rfl, rfl, rfl⟩,
    buildDefaultEtcdClient_root_ca twoBlockWorld caFlags systemRoots [1, 2, 3, 4] rfl
      (by decide) rfl rfl⟩

/-- C9 (counterexample): TLS requested, the CA file readable and without a PEM
block, but no platform trust store: the builder returns the trust-store error
after its first call, decodes nothing, and does not return the decoding error. -/
theorem root_ca_step_needs_trust_store :
    caFlags.useTLS = true ∧ caFlags.serverCAPath.length > 0
      ∧ noPoolBadCAWorld.ReadFile caFlags.serverCAPath = .ok [1, 2, 3, 4]
      ∧ (noPoolBadCAWorld.pemDecode [1, 2, 3, 4]).1 = none
      ∧ buildDefaultEtcdClient noPoolBadCAWorld caFlags =
          ((none, some ⟨"crypto/x509: system root pool is not available"⟩),
            [Call.SystemCertPool])
      ∧ (buildDefaultEtcdClient noPoolBadCAWorld caFlags).1 ≠
          (none, some (errorsNew ("Error decoding certificate " ++ caFlags.serverCAPath)))
      ∧ Call.pemDecode [1, 2, 3, 4] ∉ (buildDefaultEtcdClient noPoolBadCAWorld caFlags).2 :=
  ⟨rfl, by decide, rfl, rfl, by decide, by decide, by decide⟩

/-- C7 (amended): with use-tls false the builder still performs the TLS steps
first and returns the error of the first one that fails: it loads the
platform trust store; when root-ca is non-empty it reads the file, decodes one
PEM block (the error `Error decoding certificate` + path without one) and
parses it; when client-cert and client-key are both non-empty it loads the key
pair. When all of them succeed, the outcome is that of the plain discovery,
whatever was loaded: the lookup error of `etcd-client`, or what the client
constructor returns for the `http` endpoints without a TLS configuration. -/
theorem buildDefaultEtcdClient_plain (w : World) (fl : Flags) (hplain : fl.useTLS = false) :
    buildDefaultEtcdClient w fl =
      (let discovery : ClientResult × List Call :=
        match LookupSRV w "etcd-client" "tcp" fl.domain with
        | .error e => ((none, some e), [Call.LookupSRV "etcd-client" "tcp" fl.domain])
        | .ok srvs =>
          (w.etcdNew { Endpoints := srvs.map (endpointURL "http"), Username := fl.username,
                       Password := fl.password, TLS := none },
            [Call.LookupSRV "etcd-client" "tcp" fl.domain,
              Call.etcdNew { Endpoints := srvs.map (endpointURL "http"),
                             Username := fl.username, Password := fl.password, TLS := none }])
      let keyPairStep : List Call → ClientResult × List Call := fun calls =>
        if fl.clientCertFile.length > 0 ∧ fl.clientKeyFile.length > 0 then
          match w.LoadX509KeyPair fl.clientCertFile fl.clientKeyFile with
          | .error e =>
            ((none, some e), calls ++ [Call.LoadX509KeyPair fl.clientCertFile fl.clientKeyFile])
          | .ok _ =>
            (discovery.1,
              calls ++ [Call.LoadX509KeyPair fl.clientCertFile fl.clientKeyFile] ++ discovery.2)
        else (discovery.1, calls ++ discovery.2)
      match w.SystemCertPool with
      | .error e => ((none, some e), [Call.SystemCertPool])
      | .ok _ =>
        if fl.serverCAPath.length > 0 then
          match w.ReadFile fl.serverCAPath with
          | .error e => ((none, some e), [Call.SystemCertPool, Call.ReadFile fl.serverCAPath])
          | .ok data =>
            match (w.pemDecode data).1 with
            | none =>
              ((none, some (errorsNew ("Error decoding certificate " ++ fl.serverCAPath))),
                [Call.SystemCertPool, Call.ReadFile fl.serverCAPath, Call.pemDecode data])
            | some block =>
              match w.ParseCertificate block.Bytes with
              | .error e =>
                ((none, some e),
                  [Call.SystemCertPool, Call.ReadFile fl.serverCAPath, Call.pemDecode data,
                    Call.ParseCertificate block.Bytes])
              | .ok _ =>
                keyPairStep
                  [Call.SystemCertPool, Call.ReadFile fl.serverCAPath, Call.pemDecode data,
                    Call.ParseCertificate block.Bytes]
        else keyPairStep [Call.SystemCertPool]) := by
  have hdns : NewFromDNS w fl.domain fl.username fl.password =
      (match LookupSRV w "etcd-client" "tcp" fl.domain with
        | .error e => ((none, some e), [Call.LookupSRV "etcd-client" "tcp" fl.domain])
        | .ok srvs =>
          (w.etcdNew { Endpoints := srvs.map (endpointURL "http"), Username := fl.username,
                       Password := fl.password, TLS := none },
            [Call.LookupSRV "etcd-client" "tcp" fl.domain,
              Call.etcdNew { Endpoints := srvs.map (endpointURL "http"),
                             Username := fl.username, Password := fl.password,
                             TLS := none }])) := by
    cases hl : LookupSRV w "etcd-client" "tcp" fl.domain with
    | error e => simp only [NewFromDNS_error w _ _ _ e hl]
    | ok srvs => simp only [NewFromDNS_ok w _ _ _ srvs hl]
  rw [← hdns]
  have hkey : ∀ (roots : CertPool) (pre : List Call),
      (match (if fl.clientCertFile.length > 0 ∧ fl.clientKeyFile.length > 0 then
          match w.LoadX509KeyPair fl.clientCertFile fl.clientKeyFile with
          | .error err =>
            ((.error err : Except GoError TLSConfig), Call.SystemCertPool :: pre ++
              [Call.LoadX509KeyPair fl.clientCertFile fl.clientKeyFile])
          | .ok cert =>
            (.ok { RootCAs := some roots, Certificates := [] ++ [cert] },
              Call.SystemCertPool :: pre ++
                [Call.LoadX509KeyPair fl.clientCertFile fl.clientKeyFile])
        else (.ok { RootCAs := some roots, Certificates := [] }, Call.SystemCertPool :: pre))
        with
        | (.error err, calls) => (((none, some err) : ClientResult), calls)
        | (.ok _, calls) =>
          ((NewFromDNS w fl.domain fl.username fl.password).1,
            calls ++ (NewFromDNS w fl.domain fl.username fl.password).2)) =
      if fl.clientCertFile.length > 0 ∧ fl.clientKeyFile.length > 0 then
        match w.LoadX509KeyPair fl.clientCertFile fl.clientKeyFile with
        | .error e =>
          ((none, some e), (Call.SystemCertPool :: pre) ++
            [Call.LoadX509KeyPair fl.clientCertFile fl.clientKeyFile])
        | .ok _ =>
          ((NewFromDNS w fl.domain fl.username fl.password).1,
            (Call.SystemCertPool :: pre) ++
              [Call.LoadX509KeyPair fl.clientCertFile fl.clientKeyFile] ++
              (NewFromDNS w fl.domain fl.username fl.password).2)
      else ((NewFromDNS w fl.domain fl.username fl.password).1,
        (Call.SystemCertPool :: pre) ++ (NewFromDNS w fl.domain fl.username fl.password).2) := by
    intro roots pre
    by_cases hboth : fl.clientCertFile.length > 0 ∧ fl.clientKeyFile.length > 0
    · cases hload : w.LoadX509KeyPair fl.clientCertFile fl.clientKeyFile <;>
        simp [hboth, hload]
    · simp [hboth]
  cases hpool : w.SystemCertPool with
  | error e => simp [buildDefaultEtcdClient, buildTLSConfig, hpool]
  | ok pool =>
    by_cases hpath : fl.serverCAPath.length > 0
    · cases hread : w.ReadFile fl.serverCAPath with
      | error e => simp [buildDefaultEtcdClient, buildTLSConfig, hpool, hpath, hread]
      | ok data =>
        cases hdec : (w.pemDecode data).1 with
        | none => simp [buildDefaultEtcdClient, buildTLSConfig, hpool, hpath, hread, hdec]
        | some block =>
          cases hparse : w.ParseCertificate block.Bytes with
          | error e =>
            simp [buildDefaultEtcdClient, buildTLSConfig, hpool, hpath, hread, hdec, hparse]
          | ok cert =>
            simp only [buildDefaultEtcdClient, buildTLSConfig, hpool, hpath, hread, hdec,
              hparse, hplain, if_true, Bool.false_eq_true, if_false]
            exact hkey _ _
    · simp only [buildDefaultEtcdClient, buildTLSConfig, hpool, hpath, hplain, if_false,
        Bool.false_eq_true]
      exact hkey _ _

/-- C7 (witness): plain discovery with a root-ca path and both client paths
set, in a world where the CA file and the key pair load: the trust store, the
CA file and the key pair are loaded before the lookup of `etcd-client`, and the
client is built without a TLS configuration. -/
theorem buildDefaultEtcdClient_plain_witness :
    plainWithTLSMaterialFlags.useTLS = false
      ∧ buildDefaultEtcdClient keyPairWorld plainWithTLSMaterialFlags =
          ((some ⟨1⟩, none),
            [Call.SystemCertPool, Call.ReadFile "/etc/etcd/ca.pem", Call.pemDecode [1, 2, 3, 4],
              Call.ParseCertificate [1, 2],
              Call.LoadX509KeyPair "/etc/etcd/client.crt" "/etc/etcd/client.key",
              Call.LookupSRV "etcd-client" "tcp" "etcd.example.com",
              Call.etcdNew { Endpoints := ["http://etcd1.example.com.:2379"], Username := "",
                             Password := "", TLS := none }]) :=
  ⟨rfl, (buildDefaultEtcdClient_plain keyPairWorld plainWithTLSMaterialFlags rfl).trans
    (by decide)⟩

/-- C7 (counterexample): with use-tls false the builder loads the trust store
and fails with its error when there is none, while the same flags succeed in
the world that differs only in the trust store; and a root-ca path that cannot
be read makes it fail with the read error. -/
theorem plain_discovery_runs_tls_steps :
    plainFlags.useTLS = false
      ∧ buildDefaultEtcdClient noPoolWorld plainFlags =
          ((none, some ⟨"crypto/x509: system root pool is not available"⟩),
            [Call.SystemCertPool])
      ∧ buildDefaultEtcdClient exampleWorld plainFlags =
          ((some ⟨1⟩, none),
            [Call.SystemCertPool, Call.LookupSRV "etcd-client" "tcp" "etcd.example.com",
              Call.etcdNew { Endpoints := ["http://etcd1.example.com.:2379"], Username := "",
                             Password := "", TLS := none }])
      ∧ buildDefaultEtcdClient exampleWorld { plainFlags with serverCAPath := "/missing.pem" } =
          ((none, some ⟨"open: no such file or directory"⟩),
            [Call.SystemCertPool, Call.ReadFile "/missing.pem"]) :=
  ⟨rfl, by decide, by decide, by decide⟩

/-- C2 (code at the failing input): with the explicit endpoint flag set to
`10.0.0.1:2379` the builder still looks up the SRV records of the domain and
hands the looked-up URL, not the flag value, to the client constructor; the
flag is never read, so the outcome is the same for every value of it. -/
theorem buildDefaultEtcdClient_ignores_endpoint_flag :
    overrideFlags.endpoint = "10.0.0.1:2379"
      ∧ buildDefaultEtcdClient exampleWorld overrideFlags =
          ((some ⟨1⟩, none),
            [Call.SystemCertPool, Call.LookupSRV "etcd-client" "tcp" "etcd.example.com",
              Call.etcdNew { Endpoints := ["http://etcd1.example.com.:2379"], Username := "",
                             Password := "", TLS := none }])
      ∧ ∀ (w : World) (fl : Flags) (e : String),
          buildDefaultEtcdClient w { fl with endpoint := e } = buildDefaultEtcdClient w fl :=
  ⟨rfl, by decide, fun _ _ _ => rfl⟩

/-! ## Lazy singleton accessor -/

theorem DefaultEtcdClient_allocated_first (w : World) (fl : Flags) (g : Globals)
    (h : g.etcdOnce = some ⟨false⟩) :
    DefaultEtcdClient w fl g =
      .ok ((buildDefaultEtcdClient w fl).1,
        { etcdClient := (buildDefaultEtcdClient w fl).1.1, etcdOnce := some ⟨true⟩,
          etcdOnceError := (buildDefaultEtcdClient w fl).1.2 },
        (buildDefaultEtcdClient w fl).2) := by
  simp [DefaultEtcdClient, Once.Do, h]

theorem DefaultEtcdClient_allocated_later (w : World) (fl : Flags) (g : Globals)
    (h : g.etcdOnce = some ⟨true⟩) :
    DefaultEtcdClient w fl g = .ok ((g.etcdClient, g.etcdOnceError), g, []) := by
  cases g with
  | mk c o e =>
    simp only at h
    subst h
    simp [DefaultEtcdClient, Once.Do]

theorem DefaultEtcdClient_nil_once (w : World) (fl : Flags) (g : Globals)
    (h : g.etcdOnce = none) :
    DefaultEtcdClient w fl g = .error Panic.nilPointerDereference := by
  simp [DefaultEtcdClient, Once.Do, h]

/-- C3 (code at the failing input): from the initial package state, where
`etcdOnce` is the nil pointer, the first call to `DefaultEtcdClient` panics
in `etcdOnce.Do` for every flag state and world, and returns no pair. -/
theorem DefaultEtcdClient_first_call_panics (w : World) (fl : Flags) :
    DefaultEtcdClient w fl Globals.initial = .error Panic.nilPointerDereference :=
  rfl

/-- C4 (code at the failing input): from the initial package state every one
of any number of sequential calls panics and makes no external call, so
`buildDefaultEtcdClient` is executed by none of them. -/
theorem sequentialCalls_all_panic (fl : Flags) (ws : List World) :
    sequentialCalls fl ws Globals.initial =
      List.replicate ws.length (.error Panic.nilPointerDereference, []) := by
  induction ws with
  | nil => rfl
  | cons w ws ih =>
    simp only [sequentialCalls, DefaultEtcdClient_nil_once w fl Globals.initial rfl,
      List.length_cons, List.replicate_succ, ih]

/-- C10 (code at the failing input): already for K = 1, a single caller and
so a single interleaving, the caller does not execute `buildDefaultEtcdClient`
and returns neither a client nor an error: from the initial package state the
call ends in the nil-pointer panic of `etcdOnce.Do`, whatever the flags and
the world, and it makes no external call. -/
theorem single_first_caller_panics (w : World) (fl : Flags) :
    (∀ (r : ClientResult) (g : Globals) (calls : List Call),
        DefaultEtcdClient w fl Globals.initial ≠ .ok (r, g, calls))
      ∧ sequentialCalls fl [w] Globals.initial = [(.error Panic.nilPointerDereference, [])] := by
  refine ⟨fun r g calls h => ?_, ?_⟩
  · rw [DefaultEtcdClient_nil_once w fl Globals.initial rfl] at h
    exact Except.noConfusion h
  · simp only [sequentialCalls, DefaultEtcdClient_nil_once w fl Globals.initial rfl]

end Clientbuilder
